import Mathlib

/-!
Shallow embedding of the PGlite shared-memory polling channel
(`src/spike-memory-polling/pglite-comm-polling.h` together with the
engine-side emitters of `src/spike-memory-polling/test-wasm.c`).

The channel state is the triple of the two shared buffers and the control
block.  Every `uint32_t` field is modelled as a `Nat`, with an explicit
`% 2 ^ 32` reduction at exactly the places where the 32-bit C arithmetic
can wrap (the reference build target is wasm32, where `size_t` is 32 bits
wide, so `uint32_t + size_t` additions and `uint32_t` subtractions are
performed modulo `2 ^ 32`).  The fixed byte arrays are modelled as total
functions `Nat → Nat`; `memcpy` copies the stored values verbatim.
`ssize_t` return values are modelled by `toSSize32`, the 32-bit
unsigned-to-signed reinterpretation applied by the `(ssize_t)` casts.
-/

/-- PGLITE_BUFFER_SIZE: the compile-time capacity of each shared buffer
(64 KiB, pglite-comm-polling.h line 31). -/
def PGLITE_BUFFER_SIZE : Nat := 64 * 1024

/-- Shared buffer (struct PGliteBuffer): status flag (`BufferStatus`:
0 = EMPTY, 1 = READY, 2 = PROCESSING), current data length, and the
fixed-capacity byte array. -/
structure PGliteBuffer where
  status : Nat
  length : Nat
  data : Nat → Nat

/-- Control block (struct PGliteControl): operation (`OperationType`:
0 = NONE, 1 = READ_REQUEST, 2 = WRITE_READY, 3 = COMPLETED, 4 = ERROR),
error code, read cursor, and the two cumulative byte counters. -/
structure PGliteControl where
  operation : Nat
  error_code : Int
  read_offset : Nat
  total_read : Nat
  total_written : Nat

/-- The channel: `g_input_buffer`, `g_output_buffer`, `g_control`. -/
structure Channel where
  input : PGliteBuffer
  output : PGliteBuffer
  control : PGliteControl

/-- Zero-initialized channel, as produced by static storage at module
start. -/
def initChannel : Channel :=
  { input := { status := 0, length := 0, data := fun _ => 0 },
    output := { status := 0, length := 0, data := fun _ => 0 },
    control := { operation := 0, error_code := 0, read_offset := 0,
                 total_read := 0, total_written := 0 } }

/-- Wrapping 32-bit subtraction `a - b` as computed on `uint32_t`
operands (well-defined modular arithmetic in C); faithful for `b < 2 ^ 32`. -/
def sub32 (a b : Nat) : Nat := (a + 2 ^ 32 - b) % 2 ^ 32

/-- Reinterpretation of a 32-bit unsigned value as `ssize_t` on wasm32,
modelling the `(ssize_t)` casts on the read/write return values. -/
def toSSize32 (n : Nat) : Int := if n < 2 ^ 31 then (n : Int) else (n : Int) - 2 ^ 32

/-- The `len` bytes of a byte array `d` starting at offset `start`
(the source region of a `memcpy`). -/
def extract (d : Nat → Nat) (start len : Nat) : List Nat :=
  (List.range len).map fun j => d (start + j)

/-- Side B copying a payload into the input buffer's `data` region
(a direct store into shared memory, not an exported function). -/
def withInputData (ch : Channel) (d : Nat → Nat) : Channel :=
  { ch with input := { ch.input with data := d } }

/-- pglite_signal_input_ready (pglite-comm-polling.h lines 127-131):
store `length`, mark the input buffer READY, reset the read cursor. -/
def pglite_signal_input_ready (length : Nat) (ch : Channel) : Channel :=
  { ch with
    input := { ch.input with length := length % 2 ^ 32, status := 1 },
    control := { ch.control with read_offset := 0 } }

/-- pglite_reset_buffers (pglite-comm-polling.h lines 138-148): both
buffers to {EMPTY, 0}, control block all-zero; the data regions are not
cleared. -/
def pglite_reset_buffers (ch : Channel) : Channel :=
  { ch with
    input := { ch.input with status := 0, length := 0 },
    output := { ch.output with status := 0, length := 0 },
    control := { operation := 0, error_code := 0, read_offset := 0,
                 total_read := 0, total_written := 0 } }

/-- pglite_has_output (pglite-comm-polling.h lines 155-157): 1 if the
output buffer status is READY, 0 otherwise. -/
def pglite_has_output (ch : Channel) : Nat :=
  if ch.output.status = 1 then 1 else 0

/-- pglite_get_output_length (pglite-comm-polling.h lines 162-165). -/
def pglite_get_output_length (ch : Channel) : Nat :=
  ch.output.length

/-- pglite_ack_output (pglite-comm-polling.h lines 172-175):
unconditionally sets the output buffer to {EMPTY, 0}. -/
def pglite_ack_output (ch : Channel) : Channel :=
  { ch with output := { ch.output with status := 0, length := 0 } }

/-- pglite_polling_read (pglite-comm-polling.h lines 185-213).  Returns
the `ssize_t` result, the bytes copied into the destination, and the
updated channel.  `available` is the `uint32_t` subtraction
`input.length - read_offset`; the cursor and counter updates are the
32-bit increments of the C code, and the buffer is marked EMPTY once the
updated cursor reaches `input.length`. -/
def pglite_polling_read (max_len : Nat) (ch : Channel) : Int × List Nat × Channel :=
  if ch.input.status = 1 then
    let available := sub32 ch.input.length ch.control.read_offset
    if available = 0 then
      (0, [], { ch with input := { ch.input with status := 0 } })
    else
      let to_read := min max_len available
      let off := (ch.control.read_offset + to_read) % 2 ^ 32
      let ch1 : Channel :=
        { ch with control := { ch.control with
            read_offset := off,
            total_read := (ch.control.total_read + to_read) % 2 ^ 32 } }
      let ch2 : Channel :=
        if ch.input.length ≤ off then { ch1 with input := { ch1.input with status := 0 } }
        else ch1
      (toSSize32 to_read, extract ch.input.data ch.control.read_offset to_read, ch2)
  else
    (0, [], ch)

/-- pglite_polling_write (pglite-comm-polling.h lines 219-235).  The
overflow test `output.length + len > PGLITE_BUFFER_SIZE` is the 32-bit
addition of the C code; on overflow nothing is copied, the output buffer
is marked READY and the operation set to WRITE_READY, and -1 is
returned.  Otherwise the `len` source bytes are appended at offset
`output.length` and the length and cumulative counter advance. -/
def pglite_polling_write (src : Nat → Nat) (len : Nat) (ch : Channel) : Int × Channel :=
  if (ch.output.length + len) % 2 ^ 32 > PGLITE_BUFFER_SIZE then
    (-1, { ch with
      output := { ch.output with status := 1 },
      control := { ch.control with operation := 2 } })
  else
    (toSSize32 len, { ch with
      output := { ch.output with
        length := (ch.output.length + len) % 2 ^ 32,
        data := fun i =>
          if ch.output.length ≤ i ∧ i < ch.output.length + len then
            src (i - ch.output.length)
          else ch.output.data i },
      control := { ch.control with
        total_written := (ch.control.total_written + len) % 2 ^ 32 } })

/-- pglite_polling_flush (pglite-comm-polling.h lines 240-245): if the
output buffer is nonempty, mark it READY and set operation WRITE_READY;
otherwise do nothing. -/
def pglite_polling_flush (ch : Channel) : Channel :=
  if 0 < ch.output.length then
    { ch with
      output := { ch.output with status := 1 },
      control := { ch.control with operation := 2 } }
  else ch

/-- Writing a concrete byte list through the stream adapter (an
`internal_write(buf, len)` call where `buf` holds exactly the listed
bytes and `len` is their count). -/
def writeList (l : List Nat) (ch : Channel) : Int × Channel :=
  pglite_polling_write (fun i => l.getD i 0) l.length ch

/-- ASCII uppercasing of one byte, as in test-wasm.c lines 195-199. -/
def upcaseByte (b : Nat) : Nat :=
  if 97 ≤ b ∧ b ≤ 122 then b - 97 + 65 else b

/-- The 5-byte framed-message header: tag byte followed by the 4-byte
big-endian length field (test-wasm.c lines 202-208 and 232-238). -/
def mkHeader (tag msg_len : Nat) : List Nat :=
  [tag, (msg_len >>> 24) &&& 255, (msg_len >>> 16) &&& 255,
   (msg_len >>> 8) &&& 255, msg_len &&& 255]

/-- process_message (test-wasm.c lines 179-218): read up to 1023 bytes,
fail with error code -1 / operation ERROR on an empty read, otherwise
uppercase the payload, emit a `'R'`-tagged header (length field =
payload length + 4) and the payload — ignoring the write results — then
flush and set operation COMPLETED. -/
def process_message (ch : Channel) : Int × Channel :=
  let r := pglite_polling_read 1023 ch
  let chunk := r.2.1
  let ch1 := r.2.2
  if chunk.length = 0 then
    (-1, { ch1 with control := { ch1.control with error_code := -1, operation := 4 } })
  else
    let upper := chunk.map upcaseByte
    let header := mkHeader 82 ((chunk.length + 4) % 2 ^ 32)
    let ch2 := (writeList header ch1).2
    let ch3 := (writeList upper ch2).2
    let ch4 := pglite_polling_flush ch3
    (0, { ch4 with control := { ch4.control with operation := 3 } })

/-- Decimal ASCII digits of `n`, fuel-indexed; `fuel` bounds the
recursion depth and is always supplied large enough to print every
digit. -/
def natDecimalAux : Nat → Nat → List Nat
  | 0, _ => []
  | fuel + 1, n =>
    if n < 10 then [48 + n]
    else natDecimalAux fuel (n / 10) ++ [48 + n % 10]

/-- Decimal ASCII rendering of `n`, as produced by `snprintf` with the
`%d` conversion. -/
def natDecimal (n : Nat) : List Nat := natDecimalAux (n + 1) n

/-- The bytes of the row string `"Row <i> of <n>\n"` built by the
`snprintf` call of test-wasm.c line 229. -/
def rowBytes (i n : Nat) : List Nat :=
  [82, 111, 119, 32] ++ natDecimal i ++ [32, 111, 102, 32] ++ natDecimal n ++ [10]

/-- The loop body chain of process_multi_row (test-wasm.c lines
226-258), with `fuel` remaining iterations out of `n`: emit the header
and payload of row `n - fuel + 1`, aborting with error code -2
(header write failed) or -3 (row write failed) and operation ERROR as
soon as a write reports failure; after the last row, flush and set
operation COMPLETED. -/
def multiRowAux (n : Nat) : Nat → Channel → Int × Channel
  | 0, ch =>
    let ch1 := pglite_polling_flush ch
    (0, { ch1 with control := { ch1.control with operation := 3 } })
  | fuel + 1, ch =>
    let row := rowBytes (n - fuel) n
    let header := mkHeader 68 ((row.length + 4) % 2 ^ 32)
    let w1 := writeList header ch
    if w1.1 < 0 then
      (-1, { w1.2 with control := { w1.2.control with error_code := -2, operation := 4 } })
    else
      let w2 := writeList row w1.2
      if w2.1 < 0 then
        (-1, { w2.2 with control := { w2.2.control with error_code := -3, operation := 4 } })
      else multiRowAux n fuel w2.2

/-- process_multi_row (test-wasm.c lines 225-258). -/
def process_multi_row (n : Nat) (ch : Channel) : Int × Channel :=
  multiRowAux n n ch

/-- A sequence of stream-adapter reads with the given `max_len` values;
collects each call's `ssize_t` result and copied bytes. -/
def drainReads : List Nat → Channel → List (Int × List Nat) × Channel
  | [], ch => ([], ch)
  | m :: ms, ch =>
    let r := pglite_polling_read m ch
    let rest := drainReads ms r.2.2
    ((r.1, r.2.1) :: rest.1, rest.2)

/-- The channel invariant relating the read cursor to the input buffer:
the cursor never passes the announced input length, and the input length
respects the buffer capacity (§3 of the data model). -/
def ChannelInv (ch : Channel) : Prop :=
  ch.control.read_offset ≤ ch.input.length ∧ ch.input.length ≤ PGLITE_BUFFER_SIZE

instance : DecidablePred ChannelInv := fun ch => by
  unfold ChannelInv; infer_instance

/-- The payload "hello" placed at the start of the input data region. -/
def helloData : Nat → Nat := fun i => [104, 101, 108, 108, 111].getD i 0

/-- Reset channel with "hello" placed in the input data and signaled
ready: the starting state of the echo scenario. -/
def echoStart : Channel :=
  pglite_signal_input_ready 5 (withInputData (pglite_reset_buffers initChannel) helloData)

/-- Echo-scenario start state whose output buffer already holds 65535
unacknowledged bytes, so the 5-byte header write inside process_message
must fail. -/
def echoOverflowStart : Channel :=
  { echoStart with output := { status := 0, length := 65535, data := fun _ => 0 } }

/-- Channel whose output buffer is completely full (65536 pending
bytes), so any further nonempty write must fail. -/
def fullOutputChannel : Channel :=
  { initChannel with output := { status := 0, length := PGLITE_BUFFER_SIZE, data := fun _ => 7 } }

/-- Channel holding 5 written-but-unflushed output bytes: status EMPTY
(so has_output is false) with a nonzero length. -/
def unflushedChannel : Channel :=
  { initChannel with output := { status := 0, length := 5, data := fun _ => 0 } }

/-- Channel with one pending output byte, used to exhibit the 32-bit
wrap of the overflow test in pglite_polling_write. -/
def wrapChannel : Channel :=
  { initChannel with output := { status := 0, length := 1, data := fun _ => 0 } }

/-! Basic arithmetic facts about the 32-bit helpers. -/

theorem toSSize32_small (n : Nat) (h : n < 2 ^ 31) : toSSize32 n = (n : Int) := by
  unfold toSSize32
  rw [if_pos h]

theorem sub32_small (a b : Nat) (hb : b ≤ a) (ha : a < 2 ^ 32) : sub32 a b = a - b := by
  unfold sub32; omega

/-- C8: after `pglite_reset_buffers`, has_output is 0, the output length
reads 0, both cumulative counters read 0, both buffers are {Empty, 0},
and the control block is all-zero. -/
theorem reset_clears_channel (ch : Channel) :
    pglite_has_output (pglite_reset_buffers ch) = 0 ∧
    pglite_get_output_length (pglite_reset_buffers ch) = 0 ∧
    (pglite_reset_buffers ch).control.total_read = 0 ∧
    (pglite_reset_buffers ch).control.total_written = 0 ∧
    (pglite_reset_buffers ch).input.status = 0 ∧
    (pglite_reset_buffers ch).input.length = 0 ∧
    (pglite_reset_buffers ch).output.status = 0 ∧
    (pglite_reset_buffers ch).output.length = 0 ∧
    (pglite_reset_buffers ch).control.operation = 0 ∧
    (pglite_reset_buffers ch).control.error_code = 0 ∧
    (pglite_reset_buffers ch).control.read_offset = 0 := by
  simp [pglite_reset_buffers, pglite_has_output, pglite_get_output_length]

/-- C5 counterexample: on a channel holding 5 written-but-unflushed
output bytes, `pglite_has_output` is 0 (false) yet `pglite_ack_output`
changes the output length from 5 to 0, so it is not a no-op on the
output buffer state. -/
theorem ack_output_not_noop_cex :
    pglite_has_output unflushedChannel = 0 ∧
    unflushedChannel.output.length = 5 ∧
    (pglite_ack_output unflushedChannel).output.length = 0 := by
  decide

/-- C5 amended: when `has_output()` is false and the output buffer is
already {Empty, length 0}, `pglite_ack_output` is a no-op: the whole
channel state is unchanged.  (In general the call unconditionally resets
the output buffer to {Empty, 0}, discarding unflushed bytes.) -/
theorem ack_output_noop_when_empty (ch : Channel)
    (h1 : pglite_has_output ch = 0) (h2 : ch.output.status = 0)
    (h3 : ch.output.length = 0) :
    pglite_ack_output ch = ch := by
  obtain ⟨i, ⟨s, l, d⟩, c⟩ := ch
  simp only [pglite_ack_output] at *
  simp_all

theorem ack_output_noop_when_empty_witness :
    pglite_has_output initChannel = 0 ∧ initChannel.output.status = 0 ∧
    initChannel.output.length = 0 ∧ pglite_ack_output initChannel = initChannel :=
  ⟨by decide, by decide, by decide,
   ack_output_noop_when_empty initChannel (by decide) (by decide) (by decide)⟩

/-- C7: `pglite_polling_flush` never changes the output length or data;
it sets status Ready and operation WriteReady exactly when the output
length is positive, and is the identity when the output is empty. -/
theorem flush_sets_ready_iff_nonempty (ch : Channel) :
    (pglite_polling_flush ch).output.length = ch.output.length ∧
    (pglite_polling_flush ch).output.data = ch.output.data ∧
    (0 < ch.output.length →
      pglite_polling_flush ch =
        { ch with output := { ch.output with status := 1 },
                  control := { ch.control with operation := 2 } }) ∧
    (ch.output.length = 0 → pglite_polling_flush ch = ch) := by
  by_cases h : 0 < ch.output.length
  · refine ⟨?_, ?_, fun _ => ?_, fun h0 => ?_⟩
    · simp [pglite_polling_flush, h]
    · simp [pglite_polling_flush, h]
    · simp [pglite_polling_flush, h]
    · omega
  · refine ⟨?_, ?_, fun h1 => ?_, fun _ => ?_⟩
    · simp [pglite_polling_flush, h]
    · simp [pglite_polling_flush, h]
    · omega
    · simp [pglite_polling_flush, h]

theorem flush_sets_ready_iff_nonempty_witness :
    (pglite_polling_flush unflushedChannel).output.length = unflushedChannel.output.length ∧
    (pglite_polling_flush unflushedChannel).output.data = unflushedChannel.output.data ∧
    (0 < unflushedChannel.output.length →
      pglite_polling_flush unflushedChannel =
        { unflushedChannel with
            output := { unflushedChannel.output with status := 1 },
            control := { unflushedChannel.control with operation := 2 } }) ∧
    (unflushedChannel.output.length = 0 → pglite_polling_flush unflushedChannel = unflushedChannel) :=
  flush_sets_ready_iff_nonempty unflushedChannel

/-- C10: the two directions do not interfere.  `pglite_polling_read`
leaves the whole output buffer, the operation, the error code and the
written-bytes counter unchanged; `pglite_polling_write` and
`pglite_polling_flush` leave the whole input buffer, the read cursor and
the read-bytes counter unchanged. -/
theorem direction_frame_separation (ch : Channel) (m len : Nat) (src : Nat → Nat) :
    (pglite_polling_read m ch).2.2.output = ch.output ∧
    (pglite_polling_read m ch).2.2.control.operation = ch.control.operation ∧
    (pglite_polling_read m ch).2.2.control.error_code = ch.control.error_code ∧
    (pglite_polling_read m ch).2.2.control.total_written = ch.control.total_written ∧
    (pglite_polling_write src len ch).2.input = ch.input ∧
    (pglite_polling_write src len ch).2.control.read_offset = ch.control.read_offset ∧
    (pglite_polling_write src len ch).2.control.total_read = ch.control.total_read ∧
    (pglite_polling_flush ch).input = ch.input ∧
    (pglite_polling_flush ch).control.read_offset = ch.control.read_offset ∧
    (pglite_polling_flush ch).control.total_read = ch.control.total_read := by
  refine ⟨?_, ?_, ?_, ?_, ?_, ?_, ?_, ?_, ?_, ?_⟩ <;>
    · simp only [pglite_polling_read, pglite_polling_write, pglite_polling_flush]
      repeat' split
      all_goals rfl

/-- C2 counterexample: with one pending output byte and a write of
`len = 2 ^ 32 - 1` bytes (a representable `size_t` value on wasm32), the
mathematical condition `output.length + len > capacity` holds, yet the
32-bit overflow test wraps to 0 and the code takes the copy branch: the
operation is not set to WriteReady, the status is not set to Ready, and
the output length changes from 1 to 0. -/
theorem write_overflow_claim_cex :
    PGLITE_BUFFER_SIZE < wrapChannel.output.length + 4294967295 ∧
    (pglite_polling_write (fun _ => 0) 4294967295 wrapChannel).2.control.operation = 0 ∧
    (pglite_polling_write (fun _ => 0) 4294967295 wrapChannel).2.output.status = 0 ∧
    (pglite_polling_write (fun _ => 0) 4294967295 wrapChannel).2.output.length = 0 ∧
    wrapChannel.output.length = 1 := by
  decide

/-- C2 amended: whenever `output.length + len > capacity` and the 32-bit
addition does not wrap (`output.length + len < 2 ^ 32`), the write
copies nothing (output data and length unchanged, input unchanged),
returns -1, and sets the output status to Ready and the operation to
WriteReady. -/
theorem write_overflow_no_copy (ch : Channel) (src : Nat → Nat) (len : Nat)
    (h1 : PGLITE_BUFFER_SIZE < ch.output.length + len)
    (h2 : ch.output.length + len < 2 ^ 32) :
    (pglite_polling_write src len ch).1 = -1 ∧
    (pglite_polling_write src len ch).2.output.status = 1 ∧
    (pglite_polling_write src len ch).2.output.length = ch.output.length ∧
    (pglite_polling_write src len ch).2.output.data = ch.output.data ∧
    (pglite_polling_write src len ch).2.control.operation = 2 ∧
    (pglite_polling_write src len ch).2.input = ch.input := by
  have hc : (ch.output.length + len) % 2 ^ 32 > PGLITE_BUFFER_SIZE := by
    rw [Nat.mod_eq_of_lt h2]; exact h1
  unfold pglite_polling_write
  rw [if_pos hc]
  exact ⟨rfl, rfl, rfl, rfl, rfl, rfl⟩

theorem write_overflow_no_copy_witness :
    PGLITE_BUFFER_SIZE < initChannel.output.length + 65537 ∧
    initChannel.output.length + 65537 < 2 ^ 32 ∧
    ((pglite_polling_write (fun _ => 0) 65537 initChannel).1 = -1 ∧
     (pglite_polling_write (fun _ => 0) 65537 initChannel).2.output.status = 1 ∧
     (pglite_polling_write (fun _ => 0) 65537 initChannel).2.output.length = initChannel.output.length ∧
     (pglite_polling_write (fun _ => 0) 65537 initChannel).2.output.data = initChannel.output.data ∧
     (pglite_polling_write (fun _ => 0) 65537 initChannel).2.control.operation = 2 ∧
     (pglite_polling_write (fun _ => 0) 65537 initChannel).2.input = initChannel.input) :=
  ⟨by decide, by decide,
   write_overflow_no_copy initChannel (fun _ => 0) 65537 (by decide) (by decide)⟩

/-- C3 counterexample: on the echo scenario the output buffer length
after `process_message` is 10 (5 header bytes plus the 5 payload bytes),
not 14 as the claim states. -/
theorem echo_length_claim_cex :
    (process_message echoStart).2.output.length = 10 ∧
    (process_message echoStart).2.output.length ≠ 14 := by
  decide

/-- C3 amended: on the echo scenario ("hello" signaled ready, then
`process_message`), the output starts with the byte `'R'` (82), the next
4 bytes are the big-endian encoding of 9 (payload length 5 plus 4), the
payload bytes are "HELLO", and the output length is 10. -/
theorem echo_scenario_output :
    (process_message echoStart).2.output.data 0 = 82 ∧
    (process_message echoStart).2.output.data 1 = 0 ∧
    (process_message echoStart).2.output.data 2 = 0 ∧
    (process_message echoStart).2.output.data 3 = 0 ∧
    (process_message echoStart).2.output.data 4 = 9 ∧
    extract (process_message echoStart).2.output.data 5 5 = [72, 69, 76, 76, 79] ∧
    (process_message echoStart).2.output.length = 10 := by
  decide

/-- C4 counterexample: starting the echo scenario with 65535 pending
output bytes, the 5-byte header write inside `process_message` fails
(returns -1), yet the emitter does not abort: it returns 0 and leaves
the control block with operation COMPLETED (3, not Error) and error
code 0 (not a negative value). -/
theorem echo_emitter_ignores_write_failure_cex :
    (writeList (mkHeader 82 9) (pglite_polling_read 1023 echoOverflowStart).2.2).1 = -1 ∧
    (process_message echoOverflowStart).1 = 0 ∧
    (process_message echoOverflowStart).2.control.operation = 3 ∧
    (process_message echoOverflowStart).2.control.error_code = 0 := by
  decide

/-! Characterization of `pglite_polling_read` on the three control
paths of the C function. -/

theorem read_not_ready (m : Nat) (ch : Channel) (hs : ch.input.status ≠ 1) :
    pglite_polling_read m ch = (0, [], ch) := by
  simp [pglite_polling_read, hs]

theorem read_ready_drained (m : Nat) (ch : Channel) (hs : ch.input.status = 1)
    (h0 : sub32 ch.input.length ch.control.read_offset = 0) :
    pglite_polling_read m ch = (0, [], { ch with input := { ch.input with status := 0 } }) := by
  simp [pglite_polling_read, hs, h0]

theorem read_spec_mid (m : Nat) (ch : Channel)
    (hs : ch.input.status = 1)
    (hL : ch.input.length ≤ PGLITE_BUFFER_SIZE)
    (hmid : ch.control.read_offset + min m (ch.input.length - ch.control.read_offset) < ch.input.length) :
    pglite_polling_read m ch =
      (((min m (ch.input.length - ch.control.read_offset) : Nat) : Int),
       extract ch.input.data ch.control.read_offset (min m (ch.input.length - ch.control.read_offset)),
       { ch with control := { ch.control with
           read_offset := ch.control.read_offset + min m (ch.input.length - ch.control.read_offset),
           total_read := (ch.control.total_read + min m (ch.input.length - ch.control.read_offset)) % 2 ^ 32 } }) := by
  have hcap : ch.input.length ≤ 65536 := by simpa [PGLITE_BUFFER_SIZE] using hL
  have ho : ch.control.read_offset ≤ ch.input.length := by omega
  have hsub : sub32 ch.input.length ch.control.read_offset
      = ch.input.length - ch.control.read_offset := sub32_small _ _ ho (by omega)
  have hne : ¬ ch.input.length - ch.control.read_offset = 0 := by omega
  have hmod : (ch.control.read_offset + min m (ch.input.length - ch.control.read_offset)) % 2 ^ 32
      = ch.control.read_offset + min m (ch.input.length - ch.control.read_offset) :=
    Nat.mod_eq_of_lt (by omega)
  have hss : toSSize32 (min m (ch.input.length - ch.control.read_offset))
      = ((min m (ch.input.length - ch.control.read_offset) : Nat) : Int) :=
    toSSize32_small _ (by omega)
  simp only [pglite_polling_read]
  rw [if_pos hs, hsub, if_neg hne, hss, hmod, if_neg (by omega :
    ¬ ch.input.length ≤ ch.control.read_offset + min m (ch.input.length - ch.control.read_offset))]

theorem read_spec_end (m : Nat) (ch : Channel)
    (hs : ch.input.status = 1)
    (hL : ch.input.length ≤ PGLITE_BUFFER_SIZE)
    (hlt : ch.control.read_offset < ch.input.length)
    (hend : ch.input.length ≤ ch.control.read_offset + min m (ch.input.length - ch.control.read_offset)) :
    pglite_polling_read m ch =
      (((min m (ch.input.length - ch.control.read_offset) : Nat) : Int),
       extract ch.input.data ch.control.read_offset (min m (ch.input.length - ch.control.read_offset)),
       { ch with
         input := { ch.input with status := 0 },
         control := { ch.control with
           read_offset := ch.control.read_offset + min m (ch.input.length - ch.control.read_offset),
           total_read := (ch.control.total_read + min m (ch.input.length - ch.control.read_offset)) % 2 ^ 32 } }) := by
  have hcap : ch.input.length ≤ 65536 := by simpa [PGLITE_BUFFER_SIZE] using hL
  have ho : ch.control.read_offset ≤ ch.input.length := by omega
  have hsub : sub32 ch.input.length ch.control.read_offset
      = ch.input.length - ch.control.read_offset := sub32_small _ _ ho (by omega)
  have hne : ¬ ch.input.length - ch.control.read_offset = 0 := by omega
  have hmod : (ch.control.read_offset + min m (ch.input.length - ch.control.read_offset)) % 2 ^ 32
      = ch.control.read_offset + min m (ch.input.length - ch.control.read_offset) :=
    Nat.mod_eq_of_lt (by omega)
  have hss : toSSize32 (min m (ch.input.length - ch.control.read_offset))
      = ((min m (ch.input.length - ch.control.read_offset) : Nat) : Int) :=
    toSSize32_small _ (by omega)
  simp only [pglite_polling_read]
  rw [if_pos hs, hsub, if_neg hne, hss, hmod, if_pos (by omega :
    ch.input.length ≤ ch.control.read_offset + min m (ch.input.length - ch.control.read_offset))]

/-- C9: the invariant `read_offset ≤ input.length` (together with the
data-model bound `input.length ≤ capacity`, which the preservation
argument needs and which all operations also maintain) holds of the
zero-initialized channel and is preserved by reset, by
signal_input_ready with a length within capacity, by read, write, flush
and acknowledge; consequently the `uint32_t` subtraction
`input.length - read_offset` inside read computes the exact difference
and never underflows. -/
theorem read_offset_invariant (ch : Channel) (L m len : Nat) (src : Nat → Nat)
    (h : ChannelInv ch) (hL : L ≤ PGLITE_BUFFER_SIZE) :
    ChannelInv initChannel ∧
    ChannelInv (pglite_reset_buffers ch) ∧
    ChannelInv (pglite_signal_input_ready L ch) ∧
    ChannelInv (pglite_polling_read m ch).2.2 ∧
    ChannelInv (pglite_polling_write src len ch).2 ∧
    ChannelInv (pglite_polling_flush ch) ∧
    ChannelInv (pglite_ack_output ch) ∧
    sub32 ch.input.length ch.control.read_offset =
      ch.input.length - ch.control.read_offset := by
  obtain ⟨h1, h2⟩ := h
  have hcap : ch.input.length ≤ 65536 := by simpa [PGLITE_BUFFER_SIZE] using h2
  have hLcap : L ≤ 65536 := by simpa [PGLITE_BUFFER_SIZE] using hL
  have hsub : sub32 ch.input.length ch.control.read_offset
      = ch.input.length - ch.control.read_offset := sub32_small _ _ h1 (by omega)
  refine ⟨by decide, ?_, ?_, ?_, ?_, ?_, ?_, hsub⟩
  · simp [ChannelInv, pglite_reset_buffers, PGLITE_BUFFER_SIZE]
  · constructor
    · simp [ChannelInv, pglite_signal_input_ready]
    · simp only [ChannelInv, pglite_signal_input_ready, PGLITE_BUFFER_SIZE]
      omega
  · by_cases hs : ch.input.status = 1
    · by_cases h0 : sub32 ch.input.length ch.control.read_offset = 0
      · rw [read_ready_drained m ch hs h0]
        exact ⟨h1, h2⟩
      · have hlt : ch.control.read_offset < ch.input.length := by omega
        by_cases hend : ch.input.length ≤
            ch.control.read_offset + min m (ch.input.length - ch.control.read_offset)
        · rw [read_spec_end m ch hs h2 hlt hend]
          simp only [ChannelInv]
          refine ⟨by omega, h2⟩
        · rw [read_spec_mid m ch hs h2 (by omega)]
          simp only [ChannelInv]
          refine ⟨by omega, h2⟩
    · rw [read_not_ready m ch hs]
      exact ⟨h1, h2⟩
  · unfold pglite_polling_write
    split
    · exact ⟨h1, h2⟩
    · exact ⟨h1, h2⟩
  · unfold pglite_polling_flush
    split
    · exact ⟨h1, h2⟩
    · exact ⟨h1, h2⟩
  · exact ⟨h1, h2⟩

theorem read_offset_invariant_witness :
    ChannelInv initChannel ∧ (5 : Nat) ≤ PGLITE_BUFFER_SIZE ∧
    (ChannelInv initChannel ∧
     ChannelInv (pglite_reset_buffers initChannel) ∧
     ChannelInv (pglite_signal_input_ready 5 initChannel) ∧
     ChannelInv (pglite_polling_read 3 initChannel).2.2 ∧
     ChannelInv (pglite_polling_write (fun _ => 0) 2 initChannel).2 ∧
     ChannelInv (pglite_polling_flush initChannel) ∧
     ChannelInv (pglite_ack_output initChannel) ∧
     sub32 initChannel.input.length initChannel.control.read_offset =
       initChannel.input.length - initChannel.control.read_offset) :=
  ⟨by decide, by decide,
   read_offset_invariant initChannel 5 3 2 (fun _ => 0) (by decide) (by decide)⟩

/-- C6: after signaling L bytes ready, a read with `max_length = m < L`
returns exactly `m` bytes (the first `m` payload bytes), leaves the
input buffer status Ready, and a subsequent read with
`max_length ≥ L - m` returns exactly the remaining `L - m` bytes. -/
theorem partial_read_returns_remainder (ch : Channel) (L m m2 : Nat)
    (hL : L ≤ PGLITE_BUFFER_SIZE) (hm : m < L) (hm2 : L - m ≤ m2) :
    (pglite_polling_read m (pglite_signal_input_ready L ch)).1 = (m : Int) ∧
    (pglite_polling_read m (pglite_signal_input_ready L ch)).2.1 = extract ch.input.data 0 m ∧
    (pglite_polling_read m (pglite_signal_input_ready L ch)).2.2.input.status = 1 ∧
    (pglite_polling_read m2 (pglite_polling_read m (pglite_signal_input_ready L ch)).2.2).1
      = ((L - m : Nat) : Int) ∧
    (pglite_polling_read m2 (pglite_polling_read m (pglite_signal_input_ready L ch)).2.2).2.1
      = extract ch.input.data m (L - m) := by
  have hcap : L ≤ 65536 := by simpa [PGLITE_BUFFER_SIZE] using hL
  obtain ⟨⟨ist, il, idt⟩, ob, ⟨cop, cec, cro, ctr, ctw⟩⟩ := ch
  simp only [pglite_signal_input_ready]
  rw [show L % 2 ^ 32 = L from Nat.mod_eq_of_lt (by omega)]
  have hr1 := read_spec_mid m ⟨⟨1, L, idt⟩, ob, ⟨cop, cec, 0, ctr, ctw⟩⟩
    rfl hL (by show 0 + min m (L - 0) < L; omega)
  rw [show min m (L - 0) = m by omega] at hr1
  simp only [Nat.zero_add] at hr1
  rw [hr1]
  have hr2 := read_spec_end m2 ⟨⟨1, L, idt⟩, ob, ⟨cop, cec, m, (ctr + m) % 2 ^ 32, ctw⟩⟩
    rfl hL (by show m < L; omega) (by show L ≤ m + min m2 (L - m); omega)
  rw [show min m2 (L - m) = L - m by omega] at hr2
  rw [hr2]
  exact ⟨rfl, rfl, rfl, rfl, rfl⟩

theorem partial_read_returns_remainder_witness :
    (2 : Nat) ≤ PGLITE_BUFFER_SIZE ∧ (1 : Nat) < 2 ∧ (2 : Nat) - 1 ≤ 5 ∧
    ((pglite_polling_read 1 (pglite_signal_input_ready 2 initChannel)).1 = (1 : Int) ∧
     (pglite_polling_read 1 (pglite_signal_input_ready 2 initChannel)).2.1
       = extract initChannel.input.data 0 1 ∧
     (pglite_polling_read 1 (pglite_signal_input_ready 2 initChannel)).2.2.input.status = 1 ∧
     (pglite_polling_read 5 (pglite_polling_read 1 (pglite_signal_input_ready 2 initChannel)).2.2).1
       = ((2 - 1 : Nat) : Int) ∧
     (pglite_polling_read 5 (pglite_polling_read 1 (pglite_signal_input_ready 2 initChannel)).2.2).2.1
       = extract initChannel.input.data 1 (2 - 1)) :=
  ⟨by decide, by decide, by decide,
   partial_read_returns_remainder initChannel 2 1 5 (by decide) (by decide) (by decide)⟩

/-! Facts about `extract` and `drainReads`. -/

theorem extract_zero (d : Nat → Nat) (s : Nat) : extract d s 0 = [] := by
  simp [extract]

theorem extract_succ (d : Nat → Nat) (s k : Nat) :
    extract d s (k + 1) = extract d s k ++ [d (s + k)] := by
  simp [extract, List.range_succ]

theorem extract_append_block (d : Nat → Nat) (s a b : Nat) :
    extract d s a ++ extract d (s + a) b = extract d s (a + b) := by
  induction b with
  | zero => simp [extract]
  | succ k ih =>
    have hx : s + a + k = s + (a + k) := by omega
    rw [show a + (k + 1) = (a + k) + 1 from rfl, extract_succ, extract_succ,
      ← List.append_assoc, ih, hx]

theorem extract_length (d : Nat → Nat) (s n : Nat) : (extract d s n).length = n := by
  simp [extract]

theorem drainReads_not_ready (ms : List Nat) :
    ∀ ch : Channel, ch.input.status ≠ 1 →
      ((drainReads ms ch).1.map Prod.fst).sum = 0 ∧
      ((drainReads ms ch).1.map (fun p => p.2)).flatten = [] ∧
      (drainReads ms ch).2 = ch := by
  induction ms with
  | nil => exact fun ch h => ⟨rfl, rfl, rfl⟩
  | cons m ms ih =>
    intro ch h
    obtain ⟨s1, s2, s3⟩ := ih ch h
    simp only [drainReads]
    rw [read_not_ready m ch h]
    simp [s1, s2, s3]

/-- Drain induction: from a Ready input of length `L ≤ capacity` and a
cursor at `o ≤ L`, any read sequence whose `max_len` budget covers the
remaining `L - o` bytes returns exactly those bytes in order, with the
returned counts summing to `L - o`, and leaves the input either Empty or
Ready-but-fully-consumed. -/
theorem drainReads_ready (L : Nat) (hL : L ≤ PGLITE_BUFFER_SIZE) (ms : List Nat) :
    ∀ ch : Channel,
      ch.input.status = 1 → ch.input.length = L →
      ch.control.read_offset ≤ L → L - ch.control.read_offset ≤ ms.sum →
      ((drainReads ms ch).1.map Prod.fst).sum = ((L - ch.control.read_offset : Nat) : Int) ∧
      ((drainReads ms ch).1.map (fun p => p.2)).flatten
        = extract ch.input.data ch.control.read_offset (L - ch.control.read_offset) ∧
      ((drainReads ms ch).2.input.status = 0 ∨
       ((drainReads ms ch).2.input.status = 1 ∧
        (drainReads ms ch).2.input.length = L ∧
        (drainReads ms ch).2.control.read_offset = L)) := by
  have hcap : L ≤ 65536 := by simpa [PGLITE_BUFFER_SIZE] using hL
  induction ms with
  | nil =>
    intro ch h1 h2 h3 h4
    have hz : L - ch.control.read_offset = 0 := by simpa using h4
    refine ⟨?_, ?_, ?_⟩
    · simp [drainReads, hz]
    · simp [drainReads, hz, extract]
    · right
      exact ⟨h1, h2, show ch.control.read_offset = L by omega⟩
  | cons m ms ih =>
    intro ch h1 h2 h3 h4
    simp only [List.sum_cons] at h4
    by_cases hA : ch.control.read_offset = L
    · have h0 : sub32 ch.input.length ch.control.read_offset = 0 := by
        rw [h2, hA]; unfold sub32; omega
      obtain ⟨s1, s2, s3⟩ :=
        drainReads_not_ready ms { ch with input := { ch.input with status := 0 } } (by simp)
      dsimp only at s1 s2 s3
      simp only [drainReads]
      rw [read_ready_drained m ch h1 h0]
      dsimp only
      refine ⟨?_, ?_, ?_⟩
      · simp [s1, hA]
      · simp [s2, hA, extract]
      · left
        rw [s3]
    · have hlt : ch.control.read_offset < L := by omega
      by_cases hEnd : L ≤ ch.control.read_offset + min m (L - ch.control.read_offset)
      · have hmin : min m (L - ch.control.read_offset) = L - ch.control.read_offset := by omega
        have hr := read_spec_end m ch h1 (by rw [h2]; exact hL) (by rw [h2]; exact hlt)
          (by rw [h2]; exact hEnd)
        rw [h2, hmin] at hr
        dsimp only at hr
        obtain ⟨s1, s2, s3⟩ := drainReads_not_ready ms
          { input := { status := 0, length := ch.input.length, data := ch.input.data },
            output := ch.output,
            control := { operation := ch.control.operation,
                         error_code := ch.control.error_code,
                         read_offset := ch.control.read_offset + (L - ch.control.read_offset),
                         total_read := (ch.control.total_read + (L - ch.control.read_offset)) % 2 ^ 32,
                         total_written := ch.control.total_written } }
          (by simp)
        simp only [drainReads]
        rw [hr]
        dsimp only
        refine ⟨?_, ?_, ?_⟩
        · simp only [List.map_cons, List.sum_cons]
          rw [s1]
          simp
        · simp only [List.map_cons, List.flatten_cons]
          rw [s2]
          simp
        · left
          rw [s3]
      · have hmin : min m (L - ch.control.read_offset) = m := by omega
        have hr := read_spec_mid m ch h1 (by rw [h2]; exact hL) (by rw [h2]; omega)
        rw [h2, hmin] at hr
        dsimp only at hr
        obtain ⟨s1, s2, s3⟩ := ih
          { input := ch.input,
            output := ch.output,
            control := { operation := ch.control.operation,
                         error_code := ch.control.error_code,
                         read_offset := ch.control.read_offset + m,
                         total_read := (ch.control.total_read + m) % 2 ^ 32,
                         total_written := ch.control.total_written } }
          h1 h2 (show ch.control.read_offset + m ≤ L by omega)
          (show L - (ch.control.read_offset + m) ≤ ms.sum by omega)
        dsimp only at s1 s2 s3
        simp only [drainReads]
        rw [hr]
        dsimp only
        refine ⟨?_, ?_, ?_⟩
        · simp only [List.map_cons, List.sum_cons]
          rw [s1]
          omega
        · simp only [List.map_cons, List.flatten_cons]
          rw [s2]
          rw [extract_append_block]
          rw [show m + (L - (ch.control.read_offset + m)) = L - ch.control.read_offset by omega]
        · exact s3

/-- C1: starting from a reset channel with a payload of length
`L ≤ capacity` placed in the input data and signaled ready, any sequence
of reads whose `max_length` budget covers `L` drains exactly the `L`
payload bytes in their original order: the returned lengths sum to `L`,
the returned chunks concatenate to the payload, and one further read
returns 0. -/
theorem round_trip_drains_input (ch0 : Channel) (d : Nat → Nat) (L : Nat)
    (ms : List Nat) (mf : Nat)
    (hL : L ≤ PGLITE_BUFFER_SIZE) (hsum : L ≤ ms.sum) :
    ((drainReads ms (pglite_signal_input_ready L
        (withInputData (pglite_reset_buffers ch0) d))).1.map Prod.fst).sum = (L : Int) ∧
    ((drainReads ms (pglite_signal_input_ready L
        (withInputData (pglite_reset_buffers ch0) d))).1.map (fun p => p.2)).flatten
      = extract d 0 L ∧
    (pglite_polling_read mf (drainReads ms (pglite_signal_input_ready L
        (withInputData (pglite_reset_buffers ch0) d))).2).1 = 0 := by
  have hcap : L ≤ 65536 := by simpa [PGLITE_BUFFER_SIZE] using hL
  obtain ⟨s1, s2, s3⟩ := drainReads_ready L hL ms
    (pglite_signal_input_ready L (withInputData (pglite_reset_buffers ch0) d))
    rfl (show L % 2 ^ 32 = L from Nat.mod_eq_of_lt (by omega))
    (show (0 : Nat) ≤ L from Nat.zero_le L)
    (show L - 0 ≤ ms.sum by omega)
  have e3 : (pglite_signal_input_ready L
      (withInputData (pglite_reset_buffers ch0) d)).control.read_offset = 0 := rfl
  have e4 : (pglite_signal_input_ready L
      (withInputData (pglite_reset_buffers ch0) d)).input.data = d := rfl
  rw [e3, Nat.sub_zero] at s1
  rw [e3, e4, Nat.sub_zero] at s2
  refine ⟨s1, s2, ?_⟩
  rcases s3 with h0 | ⟨hst, hlen, hoff⟩
  · rw [read_not_ready mf _ (by simp [h0])]
  · rw [read_ready_drained mf _ hst (by rw [hlen, hoff]; unfold sub32; omega)]

theorem round_trip_drains_input_witness :
    (3 : Nat) ≤ PGLITE_BUFFER_SIZE ∧ (3 : Nat) ≤ ([2, 2] : List Nat).sum ∧
    (((drainReads [2, 2] (pglite_signal_input_ready 3
        (withInputData (pglite_reset_buffers initChannel) (fun i => i)))).1.map Prod.fst).sum = (3 : Int) ∧
     ((drainReads [2, 2] (pglite_signal_input_ready 3
        (withInputData (pglite_reset_buffers initChannel) (fun i => i)))).1.map (fun p => p.2)).flatten
       = extract (fun i => i) 0 3 ∧
     (pglite_polling_read 1 (drainReads [2, 2] (pglite_signal_input_ready 3
        (withInputData (pglite_reset_buffers initChannel) (fun i => i)))).2).1 = 0) :=
  ⟨by decide, by decide,
   round_trip_drains_input initChannel (fun i => i) 3 [2, 2] 1 (by decide) (by decide)⟩

/-! Length bounds for the decimal rendering and the row strings. -/

theorem natDecimalAux_length_le (fuel : Nat) :
    ∀ m : Nat, (natDecimalAux fuel m).length ≤ m / 10 + 1 := by
  induction fuel with
  | zero => intro m; simp [natDecimalAux]
  | succ f ih =>
    intro m
    by_cases hm : m < 10
    · simp [natDecimalAux, hm]
    · have h10 : 10 ≤ m := by omega
      have hq1 : 1 ≤ m / 10 := (Nat.one_le_div_iff (by norm_num)).mpr h10
      have hqlt : m / 10 / 10 < m / 10 := Nat.div_lt_self (by omega) (by norm_num)
      have hb := ih (m / 10)
      rw [show natDecimalAux (f + 1) m = natDecimalAux f (m / 10) ++ [48 + m % 10] by
        simp [natDecimalAux, hm]]
      simp only [List.length_append, List.length_cons, List.length_nil]
      omega

theorem rowBytes_length_le (i n : Nat) :
    (rowBytes i n).length ≤ 11 + i / 10 + n / 10 := by
  have h1 := natDecimalAux_length_le (i + 1) i
  have h2 := natDecimalAux_length_le (n + 1) n
  simp only [rowBytes, natDecimal, List.length_append, List.length_cons, List.length_nil]
  omega

/-! Step lemmas about a single `writeList` call: what a failed and a
successful write do to the output buffer. -/

theorem writeList_fail_state (l : List Nat) (ch : Channel) (hlen : l.length < 2 ^ 31)
    (h : (writeList l ch).1 < 0) :
    (writeList l ch).2.output.length = ch.output.length ∧
    (writeList l ch).2.output.data = ch.output.data := by
  by_cases hc : (ch.output.length + l.length) % 2 ^ 32 > PGLITE_BUFFER_SIZE
  · constructor
    · unfold writeList pglite_polling_write
      rw [if_pos hc]
    · unfold writeList pglite_polling_write
      rw [if_pos hc]
  · exfalso
    unfold writeList pglite_polling_write at h
    rw [if_neg hc] at h
    dsimp only at h
    rw [toSSize32_small _ hlen] at h
    omega

theorem writeList_ok_state (l : List Nat) (ch : Channel)
    (hcap : ch.output.length ≤ PGLITE_BUFFER_SIZE) (hlen : l.length < 2 ^ 31)
    (h : ¬ (writeList l ch).1 < 0) :
    (writeList l ch).2.output.length = ch.output.length + l.length ∧
    ch.output.length + l.length ≤ PGLITE_BUFFER_SIZE ∧
    ∀ i, i < ch.output.length → (writeList l ch).2.output.data i = ch.output.data i := by
  have hP : PGLITE_BUFFER_SIZE = 65536 := rfl
  have hcap2 : ch.output.length ≤ 65536 := by rw [hP] at hcap; exact hcap
  by_cases hc : (ch.output.length + l.length) % 2 ^ 32 > PGLITE_BUFFER_SIZE
  · exfalso
    apply h
    unfold writeList pglite_polling_write
    rw [if_pos hc]
    show (-1 : Int) < 0
    decide
  · have hmod : (ch.output.length + l.length) % 2 ^ 32 = ch.output.length + l.length :=
      Nat.mod_eq_of_lt (by omega)
    have hle2 : ch.output.length + l.length ≤ 65536 := by
      rw [hmod, hP] at hc; omega
    refine ⟨?_, by rw [hP]; exact hle2, ?_⟩
    · unfold writeList pglite_polling_write
      rw [if_neg hc]
      exact hmod
    · intro i hi
      unfold writeList pglite_polling_write
      rw [if_neg hc]
      show (if ch.output.length ≤ i ∧ i < ch.output.length + l.length
        then l.getD (i - ch.output.length) 0 else ch.output.data i) = ch.output.data i
      rw [if_neg (by omega : ¬ (ch.output.length ≤ i ∧ i < ch.output.length + l.length))]

/-- Abort behavior of the multi-row loop: if the loop reports failure,
some write failed, error_code is -2 or -3, operation is Error, and the
previously written output bytes are still in place. -/
theorem multiRowAux_fail (n : Nat) (hn : n < 2 ^ 31) :
    ∀ (k : Nat) (ch : Channel), ch.output.length ≤ PGLITE_BUFFER_SIZE →
      (multiRowAux n k ch).1 = -1 →
      ((multiRowAux n k ch).2.control.error_code = -2 ∨
       (multiRowAux n k ch).2.control.error_code = -3) ∧
      (multiRowAux n k ch).2.control.operation = 4 ∧
      ch.output.length ≤ (multiRowAux n k ch).2.output.length ∧
      (multiRowAux n k ch).2.output.length ≤ PGLITE_BUFFER_SIZE ∧
      ∀ i, i < ch.output.length → (multiRowAux n k ch).2.output.data i = ch.output.data i := by
  intro k
  induction k with
  | zero =>
    intro ch hle hfail
    exfalso
    rw [show (multiRowAux n 0 ch).1 = 0 from rfl] at hfail
    exact absurd hfail (by decide)
  | succ k ih =>
    intro ch hle hfail
    have hrow31 : (rowBytes (n - k) n).length < 2 ^ 31 := by
      have hb := rowBytes_length_le (n - k) n
      have hd1 : (n - k) / 10 ≤ n / 10 := Nat.div_le_div_right (by omega)
      omega
    have hhl : (mkHeader 68 (((rowBytes (n - k) n).length + 4) % 2 ^ 32)).length = 5 := by
      simp [mkHeader]
    simp only [multiRowAux] at hfail ⊢
    by_cases hw1 : (writeList (mkHeader 68 (((rowBytes (n - k) n).length + 4) % 2 ^ 32)) ch).1 < 0
    · rw [if_pos hw1] at hfail ⊢
      obtain ⟨f1, f2⟩ := writeList_fail_state _ ch (by simp [mkHeader]) hw1
      dsimp only
      refine ⟨Or.inl rfl, rfl, ?_, ?_, ?_⟩
      · omega
      · omega
      · intro i hi
        rw [f2]
    · rw [if_neg hw1] at hfail ⊢
      obtain ⟨g1, g2, g3⟩ := writeList_ok_state _ ch hle (by simp [mkHeader]) hw1
      rw [hhl] at g1 g2
      by_cases hw2 : (writeList (rowBytes (n - k) n)
          (writeList (mkHeader 68 (((rowBytes (n - k) n).length + 4) % 2 ^ 32)) ch).2).1 < 0
      · rw [if_pos hw2] at hfail ⊢
        obtain ⟨f1, f2⟩ := writeList_fail_state _ _ hrow31 hw2
        dsimp only
        refine ⟨Or.inr rfl, rfl, ?_, ?_, ?_⟩
        · omega
        · omega
        · intro i hi
          rw [f2]
          exact g3 i hi
      · rw [if_neg hw2] at hfail ⊢
        obtain ⟨f1, f2, f3⟩ := writeList_ok_state _ _ (by omega) hrow31 hw2
        obtain ⟨r1, r2, r3, r4, r5⟩ := ih
          (writeList (rowBytes (n - k) n)
            (writeList (mkHeader 68 (((rowBytes (n - k) n).length + 4) % 2 ^ 32)) ch).2).2
          (by rw [f1]; exact f2) hfail
        refine ⟨r1, r2, ?_, r4, ?_⟩
        · omega
        · intro i hi
          rw [r5 i (by omega), f3 i (by omega)]
          exact g3 i hi

/-- C4 amended: for the multi-row emitter, whenever a write inside the
loop fails mid-message (the call reports -1), the emitter aborts with
control.error_code set to the method-specific value -2 (header write) or
-3 (row write), sets operation to Error, and does not remove the
partially written bytes: previously written output bytes are unchanged
and the output length does not shrink.  (The single-message echo emitter
does not have this behavior: it ignores write failures, see the
counterexample.) -/
theorem multi_row_write_failure (n : Nat) (ch : Channel) (j : Nat)
    (hn : n < 2 ^ 31) (hch : ch.output.length ≤ PGLITE_BUFFER_SIZE)
    (hfail : (process_multi_row n ch).1 = -1) :
    ((process_multi_row n ch).2.control.error_code = -2 ∨
     (process_multi_row n ch).2.control.error_code = -3) ∧
    (process_multi_row n ch).2.control.operation = 4 ∧
    ch.output.length ≤ (process_multi_row n ch).2.output.length ∧
    (j < ch.output.length → (process_multi_row n ch).2.output.data j = ch.output.data j) := by
  obtain ⟨r1, r2, r3, r4, r5⟩ := multiRowAux_fail n hn n ch hch hfail
  exact ⟨r1, r2, r3, fun hj => r5 j hj⟩

theorem multi_row_write_failure_witness :
    (1 : Nat) < 2 ^ 31 ∧ fullOutputChannel.output.length ≤ PGLITE_BUFFER_SIZE ∧
    (process_multi_row 1 fullOutputChannel).1 = -1 ∧
    (((process_multi_row 1 fullOutputChannel).2.control.error_code = -2 ∨
      (process_multi_row 1 fullOutputChannel).2.control.error_code = -3) ∧
     (process_multi_row 1 fullOutputChannel).2.control.operation = 4 ∧
     fullOutputChannel.output.length ≤ (process_multi_row 1 fullOutputChannel).2.output.length ∧
     (0 < fullOutputChannel.output.length →
       (process_multi_row 1 fullOutputChannel).2.output.data 0 = fullOutputChannel.output.data 0)) :=
  ⟨by decide, by decide, by decide,
   multi_row_write_failure 1 fullOutputChannel 0 (by decide) (by decide) (by decide)⟩
